import Mathlib

/-!
Shallow embedding of the whitelist bot (`main.py`): a Discord client that
routes inbound guild messages into administrator commands, public commands
and wallet-address submissions, mutating an in-memory per-guild store and
persisting it after each mutation.

Pure data is modelled directly; Discord I/O (replies, file attachments,
the persistence dump `backup_data` and the operational log `_log`) is
modelled as an explicit list of emitted effects.  Dictionary accesses
that can raise `KeyError` in Python are modelled as explicit fault
outcomes which the top-level guard of `on_message` turns into a log
entry, mirroring the `try/except Exception` in the source.
-/

set_option autoImplicit false

namespace Whitelist

/-- One guild's configuration and collected entries (the
`GUILD_TEMPLATE`-shaped dict in `main.py`).  Entry keys are member ids
(`str(message.author.id)` in the source; the string conversion is
injective, so plain numeric ids are used). -/
structure GuildConfig where
  whitelist_channel : Option Nat
  whitelist_role : Option Nat
  blockchain : Option String
  data : List (Nat × String)
deriving Repr, DecidableEq

/-- `GUILD_TEMPLATE` from `main.py`. -/
def GUILD_TEMPLATE : GuildConfig :=
  { whitelist_channel := none, whitelist_role := none, blockchain := none, data := [] }

/-- `VALID_BLOCKCHAINS` from `main.py`. -/
def VALID_BLOCKCHAINS : List String := ["eth", "sol"]

/-- The in-memory store `self.data`: guild id keyed configs. -/
abbrev Store := List (Nat × GuildConfig)

/-- Read `self.data[str(gid)]`; `none` models a `KeyError`. -/
def lookupG : Store → Nat → Option GuildConfig
  | [], _ => none
  | (g, c) :: rest, gid => if g = gid then some c else lookupG rest gid

/-- Write `self.data[str(gid)] = c` (replace, or append when absent). -/
def setG : Store → Nat → GuildConfig → Store
  | [], gid, c => [(gid, c)]
  | (g, c0) :: rest, gid, c =>
    if g = gid then (gid, c) :: rest else (g, c0) :: setG rest gid c

/-- `d[k] = v` on an entries dict (replace, or append when absent). -/
def entInsert : List (Nat × String) → Nat → String → List (Nat × String)
  | [], k, v => [(k, v)]
  | (k0, v0) :: rest, k, v =>
    if k0 = k then (k, v) :: rest else (k0, v0) :: entInsert rest k v

/-- Read of an entries dict (`d.get`). -/
def entLookup : List (Nat × String) → Nat → Option String
  | [], _ => none
  | (k0, v0) :: rest, k => if k0 = k then some v0 else entLookup rest k

/-- An inbound Discord message event, restricted to the fields `main.py`
reads: author identity and flags, the author's role ids, origin channel,
guild, raw text, and the structured mention lists supplied by the
transport layer. -/
structure Message where
  authorId : Nat
  authorIsBot : Bool
  isMember : Bool
  isAdmin : Bool
  authorRoles : List Nat
  channelId : Nat
  guildId : Nat
  content : String
  channel_mentions : List Nat
  role_mentions : List Nat
deriving Repr, DecidableEq

/-- Observable side effects of handling one event: replies (plain,
embed, or with a file attachment), a persistence dump (`backup_data`,
carrying the full store it serializes at the moment of the call), and
an operational log line (`_log`). -/
inductive Effect where
  | reply (text : String)
  | replyEmbed (text : String)
  | replyFile (text : String)
  | backup (snapshot : Store)
  | log (head : String) (body : String)
deriving Repr, DecidableEq

def dropPrefixChars : List Char → List Char → Option (List Char)
  | [], rest => some rest
  | _ :: _, [] => none
  | p :: ps, ch :: cs => if p == ch then dropPrefixChars ps cs else none

/-- `str.startswith`, by structural recursion over the character lists
(so that concrete instances evaluate inside the kernel). -/
def startsWithStr (s pre : String) : Bool :=
  match dropPrefixChars pre.data s.data with
  | some _ => true
  | none => false

/-- `message.content.startswith(">")`. -/
def hasSigil (s : String) : Bool :=
  startsWithStr s ">"

def isHexDigit (ch : Char) : Bool :=
  ch.isDigit || ( ('a') ≤ ch && ch ≤ ('f')) || ( ('A') ≤ ch && ch ≤ ('F'))

/-- Modelled from the spec: `validator.py` (imported by `main.py` via
`from validator import *`) is not among the sources; per the spec the
validators are pure, total predicates over raw text, an eth address
being a 42-character hex value. -/
def validate_eth (s : String) : Bool :=
  startsWithStr s "0x" && s.data.length == 42 && (s.data.drop 2).all isHexDigit

def isBase58 (ch : Char) : Bool :=
  ch.isAlphanum && !(ch == ('0') || ch == ('O') || ch == ('I') || ch == ('l'))

/-- Modelled from the spec: `validator.py` is not among the sources; a
sol address is modelled as a base58 string of plausible length. -/
def validate_sol (s : String) : Bool :=
  Nat.ble 32 s.data.length && Nat.ble s.data.length 44 && s.data.all isBase58

/-- The `self.validators` dict; `none` models a `KeyError` on lookup
(in particular for the `None` key when `blockchain` is unset). -/
def validators (tag : String) : Option (String → Bool) :=
  if tag = "eth" then some validate_eth
  else if tag = "sol" then some validate_sol
  else none

/-- Tail `\d+>` of the mention patterns, after its first digit: zero or
more further digits, then a closing angle bracket, then the end. -/
def digitsThenClose : List Char → Bool
  | [] => false
  | [ch] => ch == ('>')
  | ch :: rest => ch.isDigit && digitsThenClose rest

/-- `re.fullmatch` of the pattern `>channel <#\d+>$` from `self.regex`. -/
def fullmatchChannel (s : String) : Bool :=
  match dropPrefixChars (">channel <#").data s.data with
  | some (ch :: rest) => ch.isDigit && digitsThenClose rest
  | _ => false

/-- `re.fullmatch` of the pattern `>role <@&\d+>$` from `self.regex`. -/
def fullmatchRole (s : String) : Bool :=
  match dropPrefixChars (">role <@&").data s.data with
  | some (ch :: rest) => ch.isDigit && digitsThenClose rest
  | _ => false

/-- Python `s[-3:]` (used as `message.content[-3:]` in `set_blockchain`). -/
def lastN (s : String) (n : Nat) : String :=
  String.mk ((s.data.reverse.take n).reverse)

/-- Worker for `str.split()`: splits on whitespace runs, dropping empty
pieces; `cur` holds the current token reversed. -/
def wsTokensAux : List Char → List Char → List (List Char)
  | [], cur => if cur.isEmpty then [] else [cur.reverse]
  | ch :: rest, cur =>
    if ch.isWhitespace then
      if cur.isEmpty then wsTokensAux rest []
      else cur.reverse :: wsTokensAux rest []
    else wsTokensAux rest (ch :: cur)

/-- Python `str.split()`: split on whitespace, dropping empty pieces. -/
def tokens (s : String) : List String :=
  (wsTokensAux s.data []).map String.mk

/-- `message.content.split()[0][1:]`: the command name after the sigil. -/
def commandOf (s : String) : String :=
  String.mk (((wsTokensAux s.data []).head?.getD []).drop 1)

/-- The trailing whitespace-delimited token of a message. -/
def trailingToken (s : String) : Option String :=
  (tokens s).getLast?

/-- Outcome of one command handler: normal completion with the updated
store and the emitted effects, an `InvalidCommand` exception, or any
other exception (the modelled `KeyError`s), which propagates to the
guard in `on_message`. -/
inductive HRes where
  | ok (s : Store) (effs : List Effect)
  | invalid
  | fault (descr : String)
deriving Repr, DecidableEq

/-- Fault description for `self.data[str(gid)]` misses (the model's
stand-in for the formatted `KeyError` traceback). -/
def keyErrorGuild : String := "KeyError: guild id not in data"

/-- Fault description for `self.validators[...]` misses. -/
def keyErrorValidator : String := "KeyError: no validator for blockchain"

/-- `set_whitelist_channel` from `main.py`. -/
def set_whitelist_channel (s : Store) (m : Message) : HRes :=
  match m.channel_mentions with
  | [ch] =>
    if fullmatchChannel m.content then
      match lookupG s m.guildId with
      | some c =>
        HRes.ok (setG s m.guildId { c with whitelist_channel := some ch })
          [Effect.reply (("Successfully set whitelist channel to <#") ++ toString ch ++ (">"))]
      | none => HRes.fault keyErrorGuild
    else HRes.invalid
  | _ => HRes.invalid

/-- `set_whitelist_role` from `main.py`. -/
def set_whitelist_role (s : Store) (m : Message) : HRes :=
  match m.role_mentions with
  | [r] =>
    if fullmatchRole m.content then
      match lookupG s m.guildId with
      | some c =>
        HRes.ok (setG s m.guildId { c with whitelist_role := some r })
          [Effect.reply (("Successfully set whitelist role to <@&") ++ toString r ++ (">"))]
      | none => HRes.fault keyErrorGuild
    else HRes.invalid
  | _ => HRes.invalid

/-- `set_blockchain` from `main.py`: the code under test is the last
three characters of the raw text (`message.content[-3:]`). -/
def set_blockchain (s : Store) (m : Message) : HRes :=
  let code := lastN m.content 3
  if code ∈ VALID_BLOCKCHAINS then
    match lookupG s m.guildId with
    | some c =>
      HRes.ok (setG s m.guildId { c with blockchain := some code })
        [Effect.reply (("Successfully set blockchain to ") ++ code)]
    | none => HRes.fault keyErrorGuild
  else HRes.invalid

def optNatStr : Option Nat → String
  | some n => toString n
  | none => "None"

def optStrStr : Option String → String
  | some t => t
  | none => "None"

/-- `get_config` from `main.py` (read-only embed reply). -/
def get_config (s : Store) (m : Message) : HRes :=
  match lookupG s m.guildId with
  | some c =>
    HRes.ok s
      [Effect.replyEmbed (("Whitelist Channel: <#") ++ optNatStr c.whitelist_channel
        ++ (">\nWhitelist Role: <@&") ++ optNatStr c.whitelist_role
        ++ (">\nBlockchain: ") ++ optStrStr c.blockchain)]
  | none => HRes.fault keyErrorGuild

/-- `get_data` from `main.py` (read-only; the CSV staging file is
abstracted into the file-reply effect). -/
def get_data (s : Store) (m : Message) : HRes :=
  match lookupG s m.guildId with
  | some _ => HRes.ok s [Effect.replyFile ("Data for server is attached.")]
  | none => HRes.fault keyErrorGuild

/-- `clear_data` from `main.py`: unconditional reset to the template. -/
def clear_data (s : Store) (m : Message) : HRes :=
  HRes.ok (setG s m.guildId GUILD_TEMPLATE)
    [Effect.reply ("Server\x27s data and config has been cleared.")]

/-- `help_admin` from `main.py` (static embed; body text abstracted). -/
def help_admin (s : Store) (_m : Message) : HRes :=
  HRes.ok s [Effect.replyEmbed ("Whitelist Manager Help (Admin)")]

/-- `help` from `main.py` (static embed; body text abstracted). -/
def help (s : Store) (_m : Message) : HRes :=
  HRes.ok s [Effect.replyEmbed ("Whitelist Manager Help")]

/-- `check` from `main.py`. -/
def check (s : Store) (m : Message) : HRes :=
  match lookupG s m.guildId with
  | none => HRes.fault keyErrorGuild
  | some c =>
    match entLookup c.data m.authorId with
    | some addr =>
      HRes.ok s [Effect.reply (("You are whitelisted! Address: `") ++ addr ++ ("`"))]
    | none =>
      HRes.ok s [Effect.reply ("Your wallet is not yet on the whitelist. Use `>help` for more info!.")]

/-- Keys of `self.admin_commands`. -/
def adminCommandNames : List String :=
  ["channel", "role", "blockchain", "data", "config", "clear", "help.admin"]

/-- Keys of `self.public_commands`. -/
def publicCommandNames : List String := ["help", "check"]

/-- Dispatch through the `self.admin_commands` dict. -/
def runAdmin (cmd : String) (s : Store) (m : Message) : HRes :=
  if cmd = "channel" then set_whitelist_channel s m
  else if cmd = "role" then set_whitelist_role s m
  else if cmd = "blockchain" then set_blockchain s m
  else if cmd = "data" then get_data s m
  else if cmd = "config" then get_config s m
  else if cmd = "clear" then clear_data s m
  else help_admin s m

/-- Dispatch through the `self.public_commands` dict. -/
def runPublic (cmd : String) (s : Store) (m : Message) : HRes :=
  if cmd = "help" then help s m else check s m

/-- The reply listing the public commands, as built from
`str(list(self.public_commands.keys()))[1:-1].replace(...)`. -/
def publicCommandsListing : String :=
  "Valid commands are: `help`, `check`, use `>help` for more info."

/-- Result of the routing body of `on_message` before the top-level
`except Exception` guard: either done, or an uncaught exception carrying
the store and the effects already performed when it was raised. -/
inductive RouteR where
  | done (s : Store) (effs : List Effect)
  | fault (s : Store) (effs : List Effect) (descr : String)
deriving Repr, DecidableEq

def RouteR.store : RouteR → Store
  | .done s _ => s
  | .fault s _ _ => s

def RouteR.effs : RouteR → List Effect
  | .done _ e => e
  | .fault _ e _ => e

/-- `message.channel.id == self.data[gid]['whitelist_channel']` (an int
never equals `None`, so an unset channel compares false). -/
def chanOk (c : GuildConfig) (m : Message) : Bool :=
  match c.whitelist_channel with
  | some ch => m.channelId == ch
  | none => false

/-- `self.data[gid]['whitelist_role'] in map(lambda x: x.id, message.author.roles)`
(`None` is never among the int role ids). -/
def roleOk (c : GuildConfig) (m : Message) : Bool :=
  match c.whitelist_role with
  | some r => m.authorRoles.contains r
  | none => false

/-- Whether the selected validator exists and accepts the text (the
successful path of `self.validators[blockchain](content)`). -/
def validatorAccepts (c : GuildConfig) (text : String) : Bool :=
  match c.blockchain with
  | none => false
  | some tag =>
    match validators tag with
    | none => false
    | some v => v text

/-- The full gate of the submission path of `on_message` (lines 240-243):
configured channel, configured role held, no sigil, and the validator
selected by the guild's blockchain accepts the text. -/
def submissionAccepted (c : GuildConfig) (m : Message) : Bool :=
  chanOk c m && roleOk c m && !(hasSigil m.content) && validatorAccepts c m.content

/-- Lines 239-250 of `main.py` (the whitelist-addition block).  The
first read of `self.data[str(message.guild.id)]` happens while the
condition is evaluated, so a missing guild faults before anything
else. -/
def submissionStep (s : Store) (m : Message) : RouteR :=
  match lookupG s m.guildId with
  | none => RouteR.fault s [] keyErrorGuild
  | some c =>
    if chanOk c m && roleOk c m && !(hasSigil m.content) then
      match c.blockchain with
      | none => RouteR.fault s [] keyErrorValidator
      | some tag =>
        match validators tag with
        | none => RouteR.fault s [] keyErrorValidator
        | some v =>
          if v m.content then
            let s2 := setG s m.guildId { c with data := entInsert c.data m.authorId m.content }
            RouteR.done s2
              [Effect.reply (("Your wallet `") ++ m.content ++ ("` has been validated and recorded.")),
               Effect.backup s2]
          else
            RouteR.done s [Effect.reply (("The address `") ++ m.content ++ ("` is invalid."))]
    else RouteR.done s []

/-- Run the submission block after effects `acc` have already been
performed by earlier branches. -/
def submissionPhase (s : Store) (m : Message) (acc : List Effect) : RouteR :=
  match submissionStep s m with
  | RouteR.done s2 effs => RouteR.done s2 (acc ++ effs)
  | RouteR.fault s2 effs d => RouteR.fault s2 (acc ++ effs) d

/-- Lines 226-250 of `main.py`: the public-command block (which, both on
an unknown command and after an `InvalidCommand`, falls through to the
submission block) followed by the submission block. -/
def publicPhase (s : Store) (m : Message) (acc : List Effect) : RouteR :=
  if hasSigil m.content then
    if commandOf m.content ∈ publicCommandNames then
      match runPublic (commandOf m.content) s m with
      | HRes.ok s2 effs => RouteR.done s2 (acc ++ effs)
      | HRes.invalid => submissionPhase s m (acc ++ [Effect.reply ("Invalid command argument.")])
      | HRes.fault d => RouteR.fault s acc d
    else
      submissionPhase s m (acc ++ [Effect.reply publicCommandsListing])
  else submissionPhase s m acc

/-- The body of `on_message` (lines 210-250), without the top-level
`except Exception` guard.  Note that the admin branch returns early only
on success; on `InvalidCommand` it replies and falls through to the
public block. -/
def routeInner (s : Store) (m : Message) : RouteR :=
  if m.authorIsBot || !(m.isMember) then RouteR.done s []
  else if m.isAdmin && hasSigil m.content then
    if commandOf m.content ∈ adminCommandNames then
      match runAdmin (commandOf m.content) s m with
      | HRes.ok s2 effs => RouteR.done s2 (effs ++ [Effect.backup s2])
      | HRes.invalid => publicPhase s m [Effect.reply ("Invalid command argument.")]
      | HRes.fault d => RouteR.fault s [] d
    else publicPhase s m []
  else publicPhase s m []

/-- Stand-in for Python's `f"{message}"` object repr in the log body. -/
def msgStr (m : Message) : String :=
  ("<Message guild=") ++ toString m.guildId ++ (" author=") ++ toString m.authorId ++ (">")

/-- The body argument `_log` receives in the `except Exception` branch:
the event followed by its raw text. -/
def logBody (m : Message) : String :=
  msgStr m ++ ("\nContent:   ") ++ m.content

/-- `on_message` from `main.py`: the routing body wrapped in the
top-level `try/except Exception` that logs and suppresses any uncaught
exception. -/
def on_message (s : Store) (m : Message) : Store × List Effect :=
  match routeInner s m with
  | RouteR.done s2 effs => (s2, effs)
  | RouteR.fault s2 effs d => (s2, effs ++ [Effect.log d (logBody m)])

/-- `on_guild_join` from `main.py`: create the default config when the
guild is unseen, then log. -/
def on_guild_join (s : Store) (g : Nat) (name : String) : Store × List Effect :=
  let s2 := if lookupG s g = none then setG s g GUILD_TEMPLATE else s
  (s2, [Effect.log ("New Guild") (toString g ++ (", ") ++ name)])

/-- The member's current entry in a guild, read off a store. -/
def entryAt (st : Store) (g a : Nat) : Option String :=
  match lookupG st g with
  | some c => entLookup c.data a
  | none => none

/-! ### Store lemmas -/

theorem lookupG_setG_self (s : Store) (g : Nat) (c : GuildConfig) :
    lookupG (setG s g c) g = some c := by
  induction s with
  | nil => simp [setG, lookupG]
  | cons hd tl ih =>
    obtain ⟨g0, c0⟩ := hd
    by_cases h : g0 = g
    · simp [setG, h, lookupG]
    · simp [setG, h, lookupG, ih]

theorem lookupG_setG_ne (s : Store) (g h' : Nat) (c : GuildConfig) (hne : g ≠ h') :
    lookupG (setG s g c) h' = lookupG s h' := by
  induction s with
  | nil => simp [setG, lookupG, hne]
  | cons hd tl ih =>
    obtain ⟨g0, c0⟩ := hd
    by_cases h : g0 = g
    · subst h; simp [setG, lookupG, hne, ih]
    · simp [setG, h, lookupG, ih]

theorem entLookup_entInsert_self (d : List (Nat × String)) (k : Nat) (v : String) :
    entLookup (entInsert d k v) k = some v := by
  induction d with
  | nil => simp [entInsert, entLookup]
  | cons hd tl ih =>
    obtain ⟨k0, v0⟩ := hd
    by_cases h : k0 = k
    · simp [entInsert, h, entLookup]
    · simp [entInsert, h, entLookup, ih]

/-! ### Frame lemmas about the router -/

theorem runPublic_ok_store (cmd : String) (s : Store) (m : Message)
    (s2 : Store) (effs : List Effect) (h : runPublic cmd s m = HRes.ok s2 effs) :
    s2 = s := by
  unfold runPublic help check at h
  split at h
  · exact (HRes.ok.injEq .. ▸ h).1.symm
  · split at h
    · exact absurd h (by simp)
    · split at h
      · exact (HRes.ok.injEq .. ▸ h).1.symm
      · exact (HRes.ok.injEq .. ▸ h).1.symm

theorem submissionStep_fault_store (s : Store) (m : Message)
    (s2 : Store) (effs : List Effect) (d : String)
    (h : submissionStep s m = RouteR.fault s2 effs d) : s2 = s := by
  unfold submissionStep at h
  split at h
  · exact (RouteR.fault.injEq .. ▸ h).1.symm
  · split at h
    · split at h
      · exact (RouteR.fault.injEq .. ▸ h).1.symm
      · split at h
        · exact (RouteR.fault.injEq .. ▸ h).1.symm
        · split at h
          · exact absurd h (by simp)
          · exact absurd h (by simp)
    · exact absurd h (by simp)

theorem submissionPhase_fault_store (s : Store) (m : Message) (acc : List Effect)
    (s2 : Store) (effs : List Effect) (d : String)
    (h : submissionPhase s m acc = RouteR.fault s2 effs d) : s2 = s := by
  unfold submissionPhase at h
  split at h
  · exact absurd h (by simp)
  · rename_i s3 effs3 d3 heq
    have h2 := (RouteR.fault.injEq .. ▸ h).1
    exact h2 ▸ submissionStep_fault_store s m s3 effs3 d3 heq

theorem publicPhase_fault_store (s : Store) (m : Message) (acc : List Effect)
    (s2 : Store) (effs : List Effect) (d : String)
    (h : publicPhase s m acc = RouteR.fault s2 effs d) : s2 = s := by
  unfold publicPhase at h
  split at h
  · split at h
    · split at h
      · exact absurd h (by simp)
      · exact submissionPhase_fault_store _ _ _ _ _ _ h
      · exact (RouteR.fault.injEq .. ▸ h).1.symm
    · exact submissionPhase_fault_store _ _ _ _ _ _ h
  · exact submissionPhase_fault_store _ _ _ _ _ _ h

theorem routeInner_fault_store (s : Store) (m : Message)
    (s2 : Store) (effs : List Effect) (d : String)
    (h : routeInner s m = RouteR.fault s2 effs d) : s2 = s := by
  unfold routeInner at h
  split at h
  · exact absurd h (by simp)
  · split at h
    · split at h
      · split at h
        · exact absurd h (by simp)
        · exact publicPhase_fault_store _ _ _ _ _ _ h
        · exact (RouteR.fault.injEq .. ▸ h).1.symm
      · exact publicPhase_fault_store _ _ _ _ _ _ h
    · exact publicPhase_fault_store _ _ _ _ _ _ h

theorem on_message_fst (s : Store) (m : Message) :
    (on_message s m).1 = (routeInner s m).store := by
  unfold on_message
  split <;> rename_i heq <;> rw [heq] <;> rfl

theorem on_message_snd_mem (s : Store) (m : Message) (e : Effect)
    (h : e ∈ (routeInner s m).effs) : e ∈ (on_message s m).2 := by
  unfold on_message
  split <;> rename_i heq <;> rw [heq] at h <;> simp [RouteR.effs] at h <;> simp [h]

theorem submissionStep_backup (s : Store) (m : Message) :
    (submissionStep s m).store = s ∨
      Effect.backup (submissionStep s m).store ∈ (submissionStep s m).effs := by
  unfold submissionStep
  split
  · exact Or.inl rfl
  · split
    · split
      · exact Or.inl rfl
      · split
        · exact Or.inl rfl
        · split
          · exact Or.inr (by simp [RouteR.store, RouteR.effs])
          · exact Or.inl rfl
    · exact Or.inl rfl

theorem submissionPhase_backup (s : Store) (m : Message) (acc : List Effect) :
    (submissionPhase s m acc).store = s ∨
      Effect.backup (submissionPhase s m acc).store ∈ (submissionPhase s m acc).effs := by
  unfold submissionPhase
  rcases submissionStep_backup s m with h | h <;>
    split <;> rename_i heq <;> rw [heq] at h <;>
    simp_all [RouteR.store, RouteR.effs]

theorem publicPhase_backup (s : Store) (m : Message) (acc : List Effect) :
    (publicPhase s m acc).store = s ∨
      Effect.backup (publicPhase s m acc).store ∈ (publicPhase s m acc).effs := by
  unfold publicPhase
  split
  · split
    · split
      · rename_i s2 effs heq
        exact Or.inl (by simp [RouteR.store, runPublic_ok_store _ _ _ _ _ heq])
      · exact submissionPhase_backup _ _ _
      · exact Or.inl rfl
    · exact submissionPhase_backup _ _ _
  · exact submissionPhase_backup _ _ _

theorem routeInner_backup (s : Store) (m : Message) :
    (routeInner s m).store = s ∨
      Effect.backup (routeInner s m).store ∈ (routeInner s m).effs := by
  unfold routeInner
  split
  · exact Or.inl rfl
  · split
    · split
      · split
        · exact Or.inr (by simp [RouteR.store, RouteR.effs])
        · exact publicPhase_backup _ _ _
        · exact Or.inl rfl
      · exact publicPhase_backup _ _ _
    · exact publicPhase_backup _ _ _

theorem submissionPhase_store (s : Store) (m : Message) (acc : List Effect) :
    (submissionPhase s m acc).store = (submissionStep s m).store := by
  unfold submissionPhase
  split <;> rename_i heq <;> rw [heq] <;> rfl

theorem submissionStep_store_cases (s : Store) (m : Message) :
    (submissionStep s m).store = s ∨
    ∃ c, lookupG s m.guildId = some c ∧ submissionAccepted c m = true ∧
      (submissionStep s m).store
        = setG s m.guildId { c with data := entInsert c.data m.authorId m.content } := by
  unfold submissionStep
  split
  · exact Or.inl rfl
  · rename_i c heq
    split
    · rename_i hgate
      split
      · exact Or.inl rfl
      · rename_i tag hcb
        split
        · exact Or.inl rfl
        · rename_i v hv
          split
          · rename_i hval
            refine Or.inr ⟨c, heq, ?_, rfl⟩
            have hva : validatorAccepts c m.content = true := by
              simp only [validatorAccepts, hcb, hv]
              exact hval
            simp only [submissionAccepted, Bool.and_eq_true] at hgate ⊢
            exact ⟨hgate, hva⟩
          · exact Or.inl rfl
    · exact Or.inl rfl

theorem publicPhase_store_cases (s : Store) (m : Message) (acc : List Effect) :
    (publicPhase s m acc).store = s ∨
    ∃ c, lookupG s m.guildId = some c ∧ submissionAccepted c m = true ∧
      (publicPhase s m acc).store
        = setG s m.guildId { c with data := entInsert c.data m.authorId m.content } := by
  have H : ∀ acc2 : List Effect, (submissionPhase s m acc2).store = s ∨
      ∃ c, lookupG s m.guildId = some c ∧ submissionAccepted c m = true ∧
        (submissionPhase s m acc2).store
          = setG s m.guildId { c with data := entInsert c.data m.authorId m.content } := by
    intro acc2
    rw [submissionPhase_store]
    exact submissionStep_store_cases s m
  unfold publicPhase
  split
  · split
    · split
      · rename_i heq
        exact Or.inl (by simp [RouteR.store, runPublic_ok_store _ _ _ _ _ heq])
      · exact H _
      · exact Or.inl rfl
    · exact H _
  · exact H _

theorem submissionAccepted_no_sigil (c : GuildConfig) (m : Message)
    (h : submissionAccepted c m = true) : hasSigil m.content = false := by
  simp only [submissionAccepted, Bool.and_eq_true, Bool.not_eq_true'] at h
  exact h.1.2

theorem publicPhase_store_sigil (s : Store) (m : Message) (acc : List Effect)
    (hsig : hasSigil m.content = true) : (publicPhase s m acc).store = s := by
  rcases publicPhase_store_cases s m acc with h | ⟨c, _, hacc, _⟩
  · exact h
  · rw [submissionAccepted_no_sigil c m hacc] at hsig
    exact absurd hsig (by simp)

theorem admin_not_public :
    ∀ x ∈ adminCommandNames, x ∉ publicCommandNames := by decide

theorem submissionAccepted_setData (c : GuildConfig) (d : List (Nat × String)) (m : Message) :
    submissionAccepted { c with data := d } m = submissionAccepted c m := rfl

/-- A successful submission run of `on_message`: the full path from the
routing guards to the entry write, the confirmation reply, and the
persistence dump. -/
theorem on_message_accept (s : Store) (m : Message) (c : GuildConfig)
    (hb : m.authorIsBot = false) (hm : m.isMember = true)
    (hc : lookupG s m.guildId = some c)
    (hacc : submissionAccepted c m = true) :
    on_message s m =
      (setG s m.guildId { c with data := entInsert c.data m.authorId m.content },
       [Effect.reply (("Your wallet `") ++ m.content ++ ("` has been validated and recorded.")),
        Effect.backup (setG s m.guildId { c with data := entInsert c.data m.authorId m.content })]) := by
  obtain ⟨h1, h2, h3, h4⟩ :
      chanOk c m = true ∧ roleOk c m = true ∧ (!(hasSigil m.content)) = true
        ∧ validatorAccepts c m.content = true := by
    simpa [submissionAccepted, Bool.and_eq_true, and_assoc] using hacc
  have hsig : hasSigil m.content = false := by simpa using h3
  cases hcb : c.blockchain with
  | none => simp [validatorAccepts, hcb] at h4
  | some tag =>
    cases hv : validators tag with
    | none => simp [validatorAccepts, hcb, hv] at h4
    | some v =>
      simp only [validatorAccepts, hcb, hv] at h4
      unfold on_message routeInner publicPhase submissionPhase submissionStep
      simp [hb, hm, hsig, hc, h1, h2, hcb, hv, h4]

/-- A submission-path run that does not accept: whenever the text has no
sigil and the gate fails, the store is unchanged (the event is skipped,
rejected with a reply, or faults on the validator lookup). -/
theorem on_message_store_noaccept (s : Store) (m : Message) (c : GuildConfig)
    (hb : m.authorIsBot = false) (hm : m.isMember = true)
    (hsig : hasSigil m.content = false)
    (hc : lookupG s m.guildId = some c)
    (hna : submissionAccepted c m = false) :
    (on_message s m).1 = s := by
  rw [on_message_fst]
  unfold routeInner publicPhase submissionPhase submissionStep
  cases h1 : chanOk c m with
  | false => simp [hb, hm, hsig, hc, h1, RouteR.store]
  | true =>
    cases h2 : roleOk c m with
    | false => simp [hb, hm, hsig, hc, h1, h2, RouteR.store]
    | true =>
      have h4 : validatorAccepts c m.content = false := by
        simpa [submissionAccepted, h1, h2, hsig] using hna
      cases hcb : c.blockchain with
      | none => simp [hb, hm, hsig, hc, h1, h2, hcb, RouteR.store]
      | some tag =>
        cases hv : validators tag with
        | none => simp [hb, hm, hsig, hc, h1, h2, hcb, hv, RouteR.store]
        | some v =>
          have h5 : v m.content = false := by
            simpa [validatorAccepts, hcb, hv] using h4
          simp [hb, hm, hsig, hc, h1, h2, hcb, hv, h5, RouteR.store]

/-! ### Claim theorems -/

/-- Convenience constructor for concrete message events without mention
lists. -/
def mkMsg (bot mem adm : Bool) (roles : List Nat) (a ch g : Nat) (c : String) : Message :=
  { authorId := a, authorIsBot := bot, isMember := mem, isAdmin := adm,
    authorRoles := roles, channelId := ch, guildId := g, content := c,
    channel_mentions := [], role_mentions := [] }

/-- C7: after every mutation completed by `on_message` (an administrator
config change, a clear, or an accepted submission), a persistence dump of
the full mutated store is among the emitted effects, so the snapshot
written after the mutation reflects that mutation. -/
theorem claim_C7_thm (s : Store) (m : Message) (h : (on_message s m).1 ≠ s) :
    Effect.backup (on_message s m).1 ∈ (on_message s m).2 := by
  rcases routeInner_backup s m with h1 | h1
  · rw [on_message_fst] at h
    exact absurd h1 h
  · rw [on_message_fst]
    exact on_message_snd_mem s m _ h1

def storeC7 : Store :=
  [(3, { whitelist_channel := some 10, whitelist_role := some 20,
         blockchain := some "eth", data := [(8, "0xw")] })]

def msgC7 : Message := mkMsg false true true [] 7 99 3 ">clear"

/-- C7 witness: an administrator `>clear` mutates the store, and the dump
of the mutated store is among the effects. -/
theorem claim_C7_witness :
    Effect.backup (on_message storeC7 msgC7).1 ∈ (on_message storeC7 msgC7).2 :=
  claim_C7_thm storeC7 msgC7 (by decide)

/-- C8: any exception raised by the routing body other than a handled
`InvalidCommand` is absorbed by the top-level guard of `on_message`: the
store is exactly as it was, and the only effect added by the fault path
is a log entry whose head is the fault description and whose body is the
event and its raw text — in particular no reply is produced there. -/
theorem claim_C8_thm (s : Store) (m : Message) (s2 : Store) (effs : List Effect) (d : String)
    (h : routeInner s m = RouteR.fault s2 effs d) :
    s2 = s ∧ on_message s m = (s, effs ++ [Effect.log d (logBody m)]) := by
  have hs := routeInner_fault_store s m s2 effs d h
  subst hs
  exact ⟨rfl, by unfold on_message; rw [h]⟩

def msgC8 : Message := mkMsg false true false [] 7 99 4 "hi there"

/-- C8 witness: a plain message from an unseen guild faults on the store
read; the fault is logged with the event and its text, nothing else. -/
theorem claim_C8_witness :
    ([] : Store) = [] ∧
      on_message [] msgC8 = ([], [] ++ [Effect.log keyErrorGuild (logBody msgC8)]) :=
  claim_C8_thm [] msgC8 [] [] keyErrorGuild (by decide)

/-- C9: a message whose author is not an administrator never changes any
guild's configured whitelist channel, whatever the message's shape. -/
theorem claim_C9_thm (s : Store) (m : Message) (hA : m.isAdmin = false) (g : Nat) :
    (lookupG (on_message s m).1 g).map GuildConfig.whitelist_channel
      = (lookupG s g).map GuildConfig.whitelist_channel := by
  rw [on_message_fst]
  unfold routeInner
  cases hbm : m.authorIsBot || !m.isMember with
  | true => simp [hbm, RouteR.store]
  | false =>
    simp only [hbm, hA, Bool.false_and, Bool.false_eq_true, if_false]
    rcases publicPhase_store_cases s m [] with h | ⟨c, hcm, _, h⟩
    · rw [h]
    · rw [h]
      by_cases hg : m.guildId = g
      · subst hg
        rw [lookupG_setG_self, hcm]
        rfl
      · rw [lookupG_setG_ne _ _ _ _ hg]

def storeC9 : Store :=
  [(1, { whitelist_channel := some 10, whitelist_role := some 20,
         blockchain := some "eth", data := [] })]

def msgC9 : Message :=
  { authorId := 7, authorIsBot := false, isMember := true, isAdmin := false,
    authorRoles := [], channelId := 10, guildId := 1, content := ">channel <#123>",
    channel_mentions := [123], role_mentions := [] }

/-- C9 witness: an unprivileged `>channel <#123>` leaves the configured
whitelist channel untouched. -/
theorem claim_C9_witness :
    (lookupG (on_message storeC9 msgC9).1 1).map GuildConfig.whitelist_channel
      = (lookupG storeC9 1).map GuildConfig.whitelist_channel :=
  claim_C9_thm storeC9 msgC9 rfl 1

/-- C10: when a dispatched administrator handler signals `InvalidCommand`
(set-channel or set-role with a bad mention list or pattern, set-ledger-type
with an undeclared code), the store — every guild's configuration and
entries — is exactly as before the handler ran. -/
theorem claim_C10_thm (s : Store) (m : Message)
    (hb : m.authorIsBot = false) (hm : m.isMember = true)
    (hA : m.isAdmin = true) (hsig : hasSigil m.content = true)
    (hcmd : commandOf m.content ∈ adminCommandNames)
    (hinv : runAdmin (commandOf m.content) s m = HRes.invalid) :
    (on_message s m).1 = s := by
  rw [on_message_fst]
  unfold routeInner
  simp only [hb, hm, hA, hsig, Bool.false_or, Bool.not_true, Bool.true_and, if_true,
    Bool.false_eq_true, if_false, hcmd, if_pos, hinv]
  exact publicPhase_store_sigil _ _ _ hsig

def storeC10 : Store := [(1, GUILD_TEMPLATE)]

def msgC10 : Message := mkMsg false true true [] 7 99 1 ">channel"

/-- C10 witness: an administrator `>channel` with no channel mention is
rejected as `InvalidCommand` and the store is unchanged. -/
theorem claim_C10_witness : (on_message storeC10 msgC10).1 = storeC10 :=
  claim_C10_thm storeC10 msgC10 rfl rfl rfl (by decide) (by decide) (by decide)

theorem on_message_accept_store (s : Store) (m : Message) (c : GuildConfig)
    (hb : m.authorIsBot = false) (hm : m.isMember = true)
    (hc : lookupG s m.guildId = some c)
    (hacc : submissionAccepted c m = true) :
    (on_message s m).1
      = setG s m.guildId { c with data := entInsert c.data m.authorId m.content } := by
  rw [on_message_accept s m c hb hm hc hacc]

def cfgC1 : GuildConfig :=
  { whitelist_channel := some 10, whitelist_role := some 20,
    blockchain := some ("eth"), data := [(5, "0xold")] }

def storeC1 : Store := [(1, cfgC1)]

def msgC1clear : Message := mkMsg false true true [] 7 99 1 ">clear"

/-- C1 counterexample: an administrator `>clear` sent in a channel that is
not the configured whitelist channel, by an author who also lacks the
whitelist role, empties the entries map — refuting the claim's clause that
a channel-mismatched (or role-lacking) message leaves entries unchanged. -/
theorem claim_C1_counterexample :
    chanOk cfgC1 msgC1clear = false ∧ roleOk cfgC1 msgC1clear = false ∧
      (lookupG storeC1 1).map GuildConfig.data = some [(5, "0xold")] ∧
      (lookupG (on_message storeC1 msgC1clear).1 1).map GuildConfig.data = some [] := by
  decide

/-- C1 (amended): for a member message in a seen guild, if the submission
gate accepts (configured channel, configured role, no leading sigil, and
the validator selected by the ledger type accepts), the member's entry is
set to the raw text, overwriting any prior value; and when the text does
not begin with the sigil and the gate rejects, the guild's entries map is
left unchanged.  (The original frame clause without the sigil proviso is
refuted by the counterexample: the admin clear command may empty entries.) -/
theorem claim_C1_thm (s : Store) (m : Message) (c : GuildConfig)
    (hb : m.authorIsBot = false) (hm : m.isMember = true)
    (hc : lookupG s m.guildId = some c) :
    (submissionAccepted c m = true →
        lookupG (on_message s m).1 m.guildId
          = some { c with data := entInsert c.data m.authorId m.content })
    ∧ (hasSigil m.content = false → submissionAccepted c m = false →
        lookupG (on_message s m).1 m.guildId = some c) := by
  constructor
  · intro hacc
    rw [on_message_accept_store s m c hb hm hc hacc]
    exact lookupG_setG_self _ _ _
  · intro hsig hna
    rw [on_message_store_noaccept s m c hb hm hsig hc hna]
    exact hc

def addrC1 : String := "0xabcdefabcdefabcdefabcdefabcdefabcdefabcd"

def msgC1sub : Message := mkMsg false true false [20] 5 10 1 addrC1

/-- C1 witness: an accepted submission overwrites the member's entry. -/
theorem claim_C1_witness :
    lookupG (on_message storeC1 msgC1sub).1 msgC1sub.guildId
      = some { cfgC1 with data := entInsert cfgC1.data msgC1sub.authorId msgC1sub.content } :=
  (claim_C1_thm storeC1 msgC1sub cfgC1 rfl rfl (by decide)).1 (by decide)

def storeC2 : Store := [(1, GUILD_TEMPLATE)]

def msgC2 : Message := mkMsg false true true [] 7 99 1 ">role"

/-- C2 counterexample: an administrator command that raises
`InvalidCommand` is not fully handled in the administrator branch — after
the invalid-argument reply, processing falls through to the public table,
whose no-match branch additionally replies with the public command
listing. -/
theorem claim_C2_counterexample :
    runAdmin (commandOf msgC2.content) storeC2 msgC2 = HRes.invalid ∧
      (on_message storeC2 msgC2).2
        = [Effect.reply ("Invalid command argument."), Effect.reply publicCommandsListing] := by
  decide

/-- C2 (amended): for an administrator sigil message whose command is in
the administrator table: on handler success, persistence of the mutated
store is triggered and nothing falls through; on `InvalidCommand`, the
generic invalid-argument reply is sent and processing falls through to
the public command table (whose no-match branch then emits the public
command listing), while the submission mutation path stays unreachable
because the text begins with the sigil, so the store is unchanged. -/
theorem claim_C2_thm (s : Store) (m : Message)
    (hb : m.authorIsBot = false) (hm : m.isMember = true)
    (hA : m.isAdmin = true) (hsig : hasSigil m.content = true)
    (hcmd : commandOf m.content ∈ adminCommandNames) :
    (∀ s2 effs, runAdmin (commandOf m.content) s m = HRes.ok s2 effs →
        on_message s m = (s2, effs ++ [Effect.backup s2]))
    ∧ (∀ c, lookupG s m.guildId = some c →
        runAdmin (commandOf m.content) s m = HRes.invalid →
        on_message s m = (s, [Effect.reply ("Invalid command argument."),
                              Effect.reply publicCommandsListing])) := by
  constructor
  · intro s2 effs heq
    unfold on_message routeInner
    simp [hb, hm, hA, hsig, hcmd, heq]
  · intro c hcm heq
    have hpub : commandOf m.content ∉ publicCommandNames := admin_not_public _ hcmd
    unfold on_message routeInner publicPhase submissionPhase submissionStep
    simp [hb, hm, hA, hsig, hcmd, heq, hpub, hcm]

def storeC2w : Store := [(4, GUILD_TEMPLATE)]

def msgC2w : Message := mkMsg false true true [] 7 99 4 ">config"

def configStrC2 : String :=
  "Whitelist Channel: <#None>\nWhitelist Role: <@&None>\nBlockchain: None"

/-- C2 witness: a successful administrator `>config` triggers persistence
and is fully handled in the administrator branch. -/
theorem claim_C2_witness :
    on_message storeC2w msgC2w
      = (storeC2w, [Effect.replyEmbed configStrC2] ++ [Effect.backup storeC2w]) :=
  (claim_C2_thm storeC2w msgC2w rfl rfl rfl (by decide) (by decide)).1
    storeC2w [Effect.replyEmbed configStrC2] (by decide)

def msgC3 : Message := mkMsg false true false [] 7 99 3 "hello"

/-- C3 counterexample: processing a message from a guild with no store
entry does not create a default config — the access faults and is merely
logged, and the guild is still absent afterwards. -/
theorem claim_C3_counterexample :
    lookupG (on_message [] msgC3).1 3 = none ∧
      (on_message [] msgC3).2 = [Effect.log keyErrorGuild (logBody msgC3)] := by
  decide

/-- C3 (amended): a default GuildConfig (all fields empty) is created on
the guild-join event, not on arbitrary first access: a non-command
message from an unseen guild raises a `KeyError` on the store read, which
the top-level guard logs; the router does not crash, the store is
unchanged, and no default entry is created. -/
theorem claim_C3_thm (s : Store) (g : Nat) (nm : String) (m : Message)
    (hb : m.authorIsBot = false) (hm : m.isMember = true)
    (hsig : hasSigil m.content = false)
    (hg : lookupG s g = none) (hgm : lookupG s m.guildId = none) :
    lookupG (on_guild_join s g nm).1 g = some GUILD_TEMPLATE
    ∧ on_message s m = (s, [Effect.log keyErrorGuild (logBody m)]) := by
  constructor
  · unfold on_guild_join
    simp [hg, lookupG_setG_self]
  · unfold on_message routeInner publicPhase submissionPhase submissionStep
    simp [hb, hm, hsig, hgm]

def msgC3w : Message := mkMsg false true false [] 9 50 6 "hola"

/-- C3 witness: join creates the default config; a plain message from an
unseen guild is logged as a fault and changes nothing. -/
theorem claim_C3_witness :
    lookupG (on_guild_join [] 6 "guild six").1 6 = some GUILD_TEMPLATE
    ∧ on_message [] msgC3w = ([], [Effect.log keyErrorGuild (logBody msgC3w)]) :=
  claim_C3_thm [] 6 "guild six" msgC3w rfl rfl rfl rfl rfl

def storeC4 : Store := [(1, GUILD_TEMPLATE)]

def msgC4 : Message := mkMsg false true true [] 7 99 1 ">blockchain weth"

/-- C4 counterexample: the handler tests the last three characters of the
raw text, not its trailing whitespace token: `>blockchain weth` has
trailing token `weth`, which is not a declared code, yet the ledger type
is set to `eth`. -/
theorem claim_C4_counterexample :
    trailingToken msgC4.content = some ("weth") ∧ ("weth") ∉ VALID_BLOCKCHAINS ∧
      (lookupG (on_message storeC4 msgC4).1 1).map GuildConfig.blockchain
        = some (some ("eth")) := by
  decide

/-- C4 (amended): for an administrator message dispatched to the
set-ledger-type handler in a seen guild, the ledger type is set (with a
confirmation and persistence) if and only if the LAST THREE CHARACTERS of
the raw text form a declared code; otherwise the handler raises
`InvalidCommand` and the store is unchanged (with the generic
invalid-argument reply emitted). -/
theorem claim_C4_thm (s : Store) (m : Message) (c : GuildConfig)
    (hb : m.authorIsBot = false) (hm : m.isMember = true)
    (hA : m.isAdmin = true) (hsig : hasSigil m.content = true)
    (hcmd : commandOf m.content = "blockchain")
    (hc : lookupG s m.guildId = some c) :
    (lastN m.content 3 ∈ VALID_BLOCKCHAINS →
        lookupG (on_message s m).1 m.guildId
            = some { c with blockchain := some (lastN m.content 3) }
          ∧ Effect.backup (on_message s m).1 ∈ (on_message s m).2)
    ∧ (lastN m.content 3 ∉ VALID_BLOCKCHAINS →
        (on_message s m).1 = s
          ∧ Effect.reply ("Invalid command argument.") ∈ (on_message s m).2) := by
  have hmem : commandOf m.content ∈ adminCommandNames := by rw [hcmd]; decide
  constructor
  · intro hin
    have hrun : runAdmin (commandOf m.content) s m
        = HRes.ok (setG s m.guildId { c with blockchain := some (lastN m.content 3) })
            [Effect.reply (("Successfully set blockchain to ") ++ lastN m.content 3)] := by
      rw [hcmd]
      unfold runAdmin set_blockchain
      simp [hin, hc]
    have hmain : on_message s m
        = (setG s m.guildId { c with blockchain := some (lastN m.content 3) },
           [Effect.reply (("Successfully set blockchain to ") ++ lastN m.content 3)]
             ++ [Effect.backup (setG s m.guildId { c with blockchain := some (lastN m.content 3) })]) := by
      unfold on_message routeInner
      simp [hb, hm, hA, hsig, hmem, hrun]
    rw [hmain]
    exact ⟨lookupG_setG_self _ _ _, by simp⟩
  · intro hnin
    have hrun : runAdmin (commandOf m.content) s m = HRes.invalid := by
      rw [hcmd]
      unfold runAdmin set_blockchain
      simp [hnin]
    have hpub : commandOf m.content ∉ publicCommandNames := admin_not_public _ hmem
    have hmain : on_message s m
        = (s, [Effect.reply ("Invalid command argument."), Effect.reply publicCommandsListing]) := by
      unfold on_message routeInner publicPhase submissionPhase submissionStep
      simp [hb, hm, hA, hsig, hmem, hrun, hpub, hc]
    rw [hmain]
    exact ⟨rfl, by simp⟩

def storeC4w : Store := [(2, GUILD_TEMPLATE)]

def msgC4w : Message := mkMsg false true true [] 7 99 2 ">blockchain sol"

/-- C4 witness: `>blockchain sol` sets the ledger type and persists. -/
theorem claim_C4_witness :
    lookupG (on_message storeC4w msgC4w).1 msgC4w.guildId
        = some { GUILD_TEMPLATE with blockchain := some (lastN msgC4w.content 3) }
      ∧ Effect.backup (on_message storeC4w msgC4w).1 ∈ (on_message storeC4w msgC4w).2 :=
  (claim_C4_thm storeC4w msgC4w GUILD_TEMPLATE rfl rfl rfl (by decide) (by decide)
    (by decide)).1 (by decide)

def cfgC5 : GuildConfig :=
  { whitelist_channel := some 10, whitelist_role := some 20,
    blockchain := none, data := [] }

def storeC5 : Store := [(1, cfgC5)]

def msgC5 : Message := mkMsg false true false [20] 7 10 1 "abc123"

/-- C5 counterexample: an eligible member's non-sigil submission in the
configured channel while the ledger type is unset produces no reply at
all — the missing-validator lookup faults, is logged, and the event is
silently dropped, contradicting the claim that a rejection is surfaced to
the submitting user. -/
theorem claim_C5_counterexample :
    chanOk cfgC5 msgC5 = true ∧ roleOk cfgC5 msgC5 = true ∧
      hasSigil msgC5.content = false ∧ cfgC5.blockchain = none ∧
      on_message storeC5 msgC5
        = (storeC5, [Effect.log keyErrorValidator (logBody msgC5)]) := by
  decide

/-- C5 (amended): a non-sigil message sent in the configured whitelist
channel by a role-holding member while the ledger type is unset is
rejected without crashing — no entry is recorded and the router returns
normally — but the rejection is not surfaced to the user: the validator
lookup faults, the top-level guard logs it, and the only effect is the
log entry. -/
theorem claim_C5_thm (s : Store) (m : Message) (c : GuildConfig)
    (hb : m.authorIsBot = false) (hm : m.isMember = true)
    (hsig : hasSigil m.content = false)
    (hc : lookupG s m.guildId = some c)
    (hch : chanOk c m = true) (hrl : roleOk c m = true)
    (hbc : c.blockchain = none) :
    on_message s m = (s, [Effect.log keyErrorValidator (logBody m)]) := by
  unfold on_message routeInner publicPhase submissionPhase submissionStep
  simp [hb, hm, hsig, hc, hch, hrl, hbc]

def cfgC5w : GuildConfig :=
  { whitelist_channel := some 11, whitelist_role := some 21,
    blockchain := none, data := [(8, "0xz")] }

def storeC5w : Store := [(2, cfgC5w)]

def msgC5w : Message := mkMsg false true false [21] 8 11 2 "xyz"

/-- C5 witness: the unset-ledger-type rejection is a silent logged fault. -/
theorem claim_C5_witness :
    on_message storeC5w msgC5w = (storeC5w, [Effect.log keyErrorValidator (logBody msgC5w)]) :=
  claim_C5_thm storeC5w msgC5w cfgC5w rfl rfl rfl (by decide) (by decide) (by decide) rfl

/-- C6: under the cooperative (asyncio) scheduling of the source, the
whole submission path from the routing guards to the entry write
(lines 239-245) contains no `await`, so each submission event's store
access is a single atomic segment and an interleaved execution of two
submission events is one of the two sequential orders of their store
actions; the later reply and dump segments do not touch the entries.  For
two accepted submissions by the same member of the same guild, either
order leaves that member's entry equal to one of the two submitted
texts — no lost or garbled update. -/
theorem claim_C6_thm (s : Store) (c : GuildConfig) (m1 m2 : Message)
    (hb1 : m1.authorIsBot = false) (hm1 : m1.isMember = true)
    (hb2 : m2.authorIsBot = false) (hm2 : m2.isMember = true)
    (hg : m2.guildId = m1.guildId) (ha : m2.authorId = m1.authorId)
    (hc : lookupG s m1.guildId = some c)
    (hacc1 : submissionAccepted c m1 = true)
    (hacc2 : submissionAccepted c m2 = true) :
    (entryAt (on_message (on_message s m1).1 m2).1 m1.guildId m1.authorId = some m2.content
      ∨ entryAt (on_message (on_message s m1).1 m2).1 m1.guildId m1.authorId = some m1.content)
    ∧ (entryAt (on_message (on_message s m2).1 m1).1 m1.guildId m1.authorId = some m1.content
      ∨ entryAt (on_message (on_message s m2).1 m1).1 m1.guildId m1.authorId = some m2.content) := by
  constructor
  · left
    have e1 := on_message_accept_store s m1 c hb1 hm1 hc hacc1
    have hl : lookupG ((on_message s m1).1) m2.guildId
        = some { c with data := entInsert c.data m1.authorId m1.content } := by
      rw [e1, hg]; exact lookupG_setG_self _ _ _
    have e2 := on_message_accept_store (on_message s m1).1 m2
      { c with data := entInsert c.data m1.authorId m1.content } hb2 hm2 hl
      (by rw [submissionAccepted_setData]; exact hacc2)
    rw [e2, e1]
    simp [entryAt, hg, ha, lookupG_setG_self, entLookup_entInsert_self]
  · left
    have hc2 : lookupG s m2.guildId = some c := by rw [hg]; exact hc
    have e1 := on_message_accept_store s m2 c hb2 hm2 hc2 hacc2
    have hl : lookupG ((on_message s m2).1) m1.guildId
        = some { c with data := entInsert c.data m2.authorId m2.content } := by
      rw [e1, hg]; exact lookupG_setG_self _ _ _
    have e2 := on_message_accept_store (on_message s m2).1 m1
      { c with data := entInsert c.data m2.authorId m2.content } hb1 hm1 hl
      (by rw [submissionAccepted_setData]; exact hacc1)
    rw [e2, e1]
    simp [entryAt, hg, ha, lookupG_setG_self, entLookup_entInsert_self]

def cfgC6 : GuildConfig :=
  { whitelist_channel := some 10, whitelist_role := some 20,
    blockchain := some ("eth"), data := [] }

def storeC6 : Store := [(2, cfgC6)]

def addrC6a : String := "0x1111111111111111111111111111111111111111"

def addrC6b : String := "0x2222222222222222222222222222222222222222"

def msgC6a : Message := mkMsg false true false [20] 5 10 2 addrC6a

def msgC6b : Message := mkMsg false true false [20] 5 10 2 addrC6b

/-- C6 witness: two accepted submissions by the same member, in either
order, leave the entry at one of the two submitted texts. -/
theorem claim_C6_witness :
    (entryAt (on_message (on_message storeC6 msgC6a).1 msgC6b).1 msgC6a.guildId msgC6a.authorId
        = some msgC6b.content
      ∨ entryAt (on_message (on_message storeC6 msgC6a).1 msgC6b).1 msgC6a.guildId msgC6a.authorId
        = some msgC6a.content)
    ∧ (entryAt (on_message (on_message storeC6 msgC6b).1 msgC6a).1 msgC6a.guildId msgC6a.authorId
        = some msgC6a.content
      ∨ entryAt (on_message (on_message storeC6 msgC6b).1 msgC6a).1 msgC6a.guildId msgC6a.authorId
        = some msgC6b.content) :=
  claim_C6_thm storeC6 cfgC6 msgC6a msgC6b rfl rfl rfl rfl rfl rfl
    (by decide) (by decide) (by decide)

end Whitelist
